import Mathlib

/-!
Shallow embedding of `src/client.ts` (qinglong SDK client).

The TypeScript client holds `baseUrl`, `clientId`, `clientSecret`, a cached
`tokenInfo` and an axios instance. Its operations (`request`, `doGetToken`,
`getToken`, `getEnv`, `setEnv`) perform HTTP calls and may mutate `tokenInfo`.

Modelling choices:
* The HTTP transport is an explicit oracle: a `Wire` holds the queue of
  `pending` transport outcomes (consumed one per HTTP call, in order) and the
  trace of `sent` request configurations. Each awaited
  `axiosInstance.request(config)` pops one pending outcome and appends the
  config to `sent`.
* Every operation threads the client record and the wire explicitly:
  `Client → ... → Wire → result × Client × Wire`. Thrown JS errors become
  `Except.error`.
* JSON payloads are a small sum `JVal` covering the shapes the client reads.
  JS dynamic property access on values of an unexpected shape is modelled
  where the source performs it (see `JVal.toTokenInfo`, `JVal.toEnvList`).
* Numbers (`status`, `code`, `id`, `expiration`) are `Int`. JS truthiness of
  the numeric field `expiration` is `expiration ≠ 0` (NaN is not modelled).
* The `RWLock` created at line 75 of the source is a fresh, call-local lock:
  `writeLock()` on it can never block, so in the sequential semantics the
  lock acquisition is a no-op and the double-check re-reads the same
  `tokenInfo`. A separate small-step interleaving model (`RaceState` below)
  covers two concurrent `getToken` calls.
-/

namespace Qinglong

/-- `ITokenInfo` from the source: the token payload of `/open/auth/token`. -/
structure ITokenInfo where
  token : String
  token_type : String
  expiration : Int
deriving DecidableEq, Repr

/-- `IGetEnvResp` from the source: one environment-variable record. -/
structure IGetEnvResp where
  id : Int
  name : String
  value : String
  remarks : String
deriving DecidableEq, Repr

/-- JSON-ish values the client can receive as the `data` field of a response
body. An env list may contain `none` (JSON `null`) entries, since nothing in
the client validates the wire shape. -/
inductive JVal where
  | jnull
  | jnum (n : Int)
  | jstr (s : String)
  | jtok (t : ITokenInfo)
  | jenvs (envs : List (Option IGetEnvResp))
  | jenv (e : IGetEnvResp)
deriving DecidableEq, Repr

/-- The JSON body `{ id, name, value, remarks }` that `setEnv` PUTs.
`remarks` is optional in the source (`remarks?: string`). -/
structure PutEnvBody where
  id : Int
  name : String
  value : String
  remarks : Option String
deriving DecidableEq, Repr

/-- An axios request config as the client builds it: method, url, query
params, headers, and an optional JSON body (only `setEnv` sends one). -/
structure ReqConfig where
  method : String
  url : String
  params : List (String × String)
  headers : List (String × String)
  data : Option PutEnvBody
deriving DecidableEq, Repr

/-- A parsed response body: the service wraps payloads as
`{ code, data }` and the client destructures exactly these two fields. -/
structure RespBody where
  code : Int
  data : JVal
deriving DecidableEq, Repr

/-- An HTTP response as axios delivers it: `status` plus the parsed JSON body
in `data` (so `resp.data.code` / `resp.data.data` read as in the source). -/
structure HttpResponse where
  status : Int
  data : RespBody
deriving DecidableEq, Repr

/-- Outcome of one transport call: either the promise rejects (network
error, timeout) or a response arrives. -/
inductive TransportOutcome where
  | err (msg : String)
  | resp (r : HttpResponse)
deriving DecidableEq, Repr

/-- The transport oracle and observable trace: `pending` outcomes are
consumed one per HTTP call; `sent` records every issued request config in
order. -/
structure Wire where
  pending : List TransportOutcome
  sent : List ReqConfig
deriving DecidableEq, Repr

/-- Errors a client operation can propagate. `new Error(msg)` throws with a
claim-relevant message become `jsError msg`; the two `requestFail` throws are
kept structurally (their messages interpolate the stringified `url` function
imported from `inspector`, which no claim inspects); JS runtime TypeErrors
(property access on null, for-of over a non-array) become `typeError`. -/
inductive Err where
  | transport (msg : String)
  | requestFailStatus (status : Int) (respData : RespBody)
  | requestFailCode (code : Int) (data : JVal)
  | jsError (msg : String)
  | typeError (msg : String)
deriving DecidableEq, Repr

/-- The config `axios.create` is called with in the constructor. -/
structure AxiosCreateConfig where
  method : String
  baseURL : String
  responseType : String
  timeout : Int
deriving DecidableEq, Repr

/-- The `Client` class state. -/
structure Client where
  baseUrl : String
  clientId : String
  clientSecret : String
  tokenInfo : Option ITokenInfo
  axiosInstance : AxiosCreateConfig
deriving DecidableEq, Repr

/-- The constructor: stores the three credentials, creates the axios
instance, and clears `tokenInfo`. -/
def Client.create (baseUrl clientId clientSecret : String) : Client :=
  { baseUrl := baseUrl
    clientId := clientId
    clientSecret := clientSecret
    axiosInstance :=
      { method := "GET", baseURL := baseUrl, responseType := "json", timeout := 3000 }
    tokenInfo := none }

/-- One transport call: append the config to the `sent` trace and consume the
head pending outcome (an exhausted oracle behaves as a network error). -/
def httpCall (cfg : ReqConfig) (w : Wire) : TransportOutcome × Wire :=
  match w.pending with
  | [] => (.err "network unreachable", { pending := [], sent := w.sent ++ [cfg] })
  | o :: rest => (o, { pending := rest, sent := w.sent ++ [cfg] })

/-- `Client.request` (source lines 40-56): one transport call; throw on a
status outside [200, 300); destructure `{ code, data }` from the body and
throw when `code !== 200`; otherwise return `data`. -/
def Client.request (c : Client) (cfg : ReqConfig) (w : Wire) :
    Except Err JVal × Client × Wire :=
  match httpCall cfg w with
  | (.err msg, w) => (.error (.transport msg), c, w)
  | (.resp resp, w) =>
    if resp.status < 200 ∨ 300 ≤ resp.status then
      (.error (.requestFailStatus resp.status resp.data), c, w)
    else if resp.data.code ≠ 200 then
      (.error (.requestFailCode resp.data.code resp.data.data), c, w)
    else
      (.ok resp.data.data, c, w)

/-- JS property reads `token` / `token_type` / `expiration` on the response
data, as `getToken` performs after the unchecked cast to `IGetTokenResp`: on
a non-token value each property is `undefined`, which interpolates as the
string "undefined" and is falsy (modelled as expiration 0). -/
def JVal.toTokenInfo : JVal → ITokenInfo
  | .jtok t => t
  | _ => { token := "undefined", token_type := "undefined", expiration := 0 }

/-- The request config `doGetToken` builds (source lines 59-66). -/
def tokenRequestConfig (c : Client) : ReqConfig :=
  { method := "GET"
    url := "/open/auth/token"
    params := [("client_id", c.clientId), ("client_secret", c.clientSecret)]
    headers := []
    data := none }

/-- `Client.doGetToken` (source lines 58-67): GET `/open/auth/token` with the
client credentials as query params, returning the payload as token info. -/
def Client.doGetToken (c : Client) (w : Wire) :
    Except Err ITokenInfo × Client × Wire :=
  match c.request (tokenRequestConfig c) w with
  | (.ok v, c, w) => (.ok v.toTokenInfo, c, w)
  | (.error e, c, w) => (.error e, c, w)

/-- The string `getToken` returns: `` `${tokenInfo.token_type} ${tokenInfo.token}` ``. -/
def tokenString (ti : ITokenInfo) : String :=
  ti.token_type ++ " " ++ ti.token

/-- Source lines 83-85: fetch the token, store it in `this.tokenInfo`, and
return the formatted string. On failure the error propagates (the `finally`
only unlocks the call-local lock). -/
def Client.fetchAndStoreToken (c : Client) (w : Wire) :
    Except Err String × Client × Wire :=
  match c.doGetToken w with
  | (.ok ti, c, w) => (.ok (tokenString ti), { c with tokenInfo := some ti }, w)
  | (.error e, c, w) => (.error e, c, w)

/-- Source lines 75-88: a fresh `RWLock` is created for this call, so
`writeLock()` acquires immediately; the double-check re-reads `tokenInfo`
(sequentially unchanged) and falls through to the fetch when it is still
null or has falsy `expiration`. -/
def Client.getTokenLocked (c : Client) (w : Wire) :
    Except Err String × Client × Wire :=
  match c.tokenInfo with
  | some ti =>
    if ti.expiration ≠ 0 then (.ok (tokenString ti), c, w)
    else c.fetchAndStoreToken w
  | none => c.fetchAndStoreToken w

/-- `Client.getToken` (source lines 69-89): return the cached token when
`tokenInfo && tokenInfo.expiration` is truthy, otherwise take the (call-local)
lock path. -/
def Client.getToken (c : Client) (w : Wire) :
    Except Err String × Client × Wire :=
  match c.tokenInfo with
  | some ti =>
    if ti.expiration ≠ 0 then (.ok (tokenString ti), c, w)
    else c.getTokenLocked w
  | none => c.getTokenLocked w

/-- The message of `getEnv`'s throw: `Env '<name>' Not Found`. -/
def envNotFoundMsg (name : String) : String :=
  "Env \x27" ++ name ++ "\x27 Not Found"

/-- The message of `setEnv`'s guard throw: `Env '<name>' Not Exist`. -/
def envNotExistMsg (name : String) : String :=
  "Env \x27" ++ name ++ "\x27 Not Exist"

/-- The for-of loop of `getEnv` (source lines 103-109): return the first
element whose `name` equals the requested name; reading `.name` on a null
element throws a TypeError; an exhausted loop throws `Env '<name>' Not Found`.
The returned JS value is the raw list element, hence `Option`-typed. -/
def findEnv (name : String) : List (Option IGetEnvResp) → Except Err (Option IGetEnvResp)
  | [] => .error (.jsError (envNotFoundMsg name))
  | none :: _ => .error (.typeError "Cannot read properties of null")
  | some e :: rest => if e.name = name then .ok (some e) else findEnv name rest

/-- Iterating the response data as `IGetEnvResp[]`: only an array value is
iterable as env records; any other shape makes the for-of loop throw. -/
def JVal.toEnvList : JVal → Except Err (List (Option IGetEnvResp))
  | .jenvs envs => .ok envs
  | _ => .error (.typeError "is not iterable")

/-- The request config `getEnv` builds (source lines 92-101). -/
def envQueryConfig (auth name : String) : ReqConfig :=
  { method := "GET"
    url := "/open/envs"
    params := [("searchValue", name)]
    headers := [("Authorization", auth)]
    data := none }

/-- The part of `getEnv` after the Authorization header has been resolved:
GET `/open/envs?searchValue=<name>` and scan the returned list. -/
def Client.getEnvWithAuth (c : Client) (auth name : String) (w : Wire) :
    Except Err (Option IGetEnvResp) × Client × Wire :=
  match c.request (envQueryConfig auth name) w with
  | (.error e, c, w) => (.error e, c, w)
  | (.ok v, c, w) =>
    match v.toEnvList with
    | .error e => (.error e, c, w)
    | .ok envs => (findEnv name envs, c, w)

/-- `Client.getEnv` (source lines 91-110): resolve the Authorization header
via `getToken` (awaited while building the config, hence first), then query
and scan. -/
def Client.getEnv (c : Client) (name : String) (w : Wire) :
    Except Err (Option IGetEnvResp) × Client × Wire :=
  match c.getToken w with
  | (.error e, c, w) => (.error e, c, w)
  | (.ok auth, c, w) => c.getEnvWithAuth auth name w

/-- The request config `setEnv` builds for its PUT (source lines 122-135). -/
def envUpdateConfig (auth name value : String) (remarks : Option String) (id : Int) :
    ReqConfig :=
  { method := "PUT"
    url := "/open/envs"
    params := []
    headers := [("Authorization", auth), ("Content-Type", "application/json")]
    data := some { id := id, name := name, value := value, remarks := remarks } }

/-- The PUT of `setEnv` once the record id is known: resolve the
Authorization header again (the config literal awaits `getToken`), then PUT
the update, returning the response data. -/
def Client.putEnv (c : Client) (name value : String) (remarks : Option String)
    (id : Int) (w : Wire) : Except Err JVal × Client × Wire :=
  match c.getToken w with
  | (.error e, c, w) => (.error e, c, w)
  | (.ok auth, c, w) =>
    c.request (envUpdateConfig auth name value remarks id) w

/-- `Client.setEnv` (source lines 112-136): look the variable up with
`getEnv` (propagating its error), guard `if (!env)` on the looked-up JS
value, and PUT the update carrying the looked-up `id`. -/
def Client.setEnv (c : Client) (name value : String) (remarks : Option String) (w : Wire) :
    Except Err JVal × Client × Wire :=
  match c.getEnv name w with
  | (.error e, c, w) => (.error e, c, w)
  | (.ok envOpt, c, w) =>
    match envOpt with
    | none => (.error (.jsError (envNotExistMsg name)), c, w)
    | some env => c.putEnv name value remarks env.id w

/-!
Small-step interleaving model of two concurrent `getToken` calls (tasks A
and B) on one shared client. Shared state is `tokenInfo`; each task's program
counter tracks its position in the source. Because line 75 creates a fresh
`RWLock` inside each call, the two tasks hold distinct locks and
`writeLock()` never blocks either of them: acquiring the lock is folded into
reaching `locked`. Await points (the lock acquisition and the fetch) are the
only places the source can interleave, which the step granularity mirrors.
Both fetches are given successful token responses (`tA` / `tB`).
-/

/-- Program counter of one `getToken` task. -/
inductive RacePc where
  | start
  | locked
  | fetching
  | done (r : String)
deriving DecidableEq, Repr

/-- Shared state of the two-task system plus the count of token-fetch HTTP
requests issued. -/
structure RaceState where
  tokenInfo : Option ITokenInfo
  pcA : RacePc
  pcB : RacePc
  fetches : Nat
deriving DecidableEq, Repr

/-- One atomic step of a task whose fetch (if any) the server answers with
`resp`: from `start`, run the unlocked check (lines 70-73) and either return
the cached token or acquire the call-local lock; from `locked`, run the
double-check (lines 78-81) and either return or issue the fetch (line 83,
counted); from `fetching`, receive the response, store it in the shared
`tokenInfo` and return its string (lines 83-85). Returns the new shared
`tokenInfo`, the new pc, and the number of fetches this step issued. -/
def raceStep (resp : ITokenInfo) (tok : Option ITokenInfo) (pc : RacePc) :
    Option ITokenInfo × RacePc × Nat :=
  match pc with
  | .start =>
    match tok with
    | some ti =>
      if ti.expiration ≠ 0 then (tok, .done (tokenString ti), 0) else (tok, .locked, 0)
    | none => (tok, .locked, 0)
  | .locked =>
    match tok with
    | some ti =>
      if ti.expiration ≠ 0 then (tok, .done (tokenString ti), 0) else (tok, .fetching, 1)
    | none => (tok, .fetching, 1)
  | .fetching => (some resp, .done (tokenString resp), 0)
  | .done r => (tok, .done r, 0)

/-- Run a schedule: `false` steps task A (served `tA`), `true` steps task B
(served `tB`). -/
def raceRun (tA tB : ITokenInfo) (s : RaceState) : List Bool → RaceState
  | [] => s
  | b :: rest =>
    if b then
      let (tok, pc, f) := raceStep tB s.tokenInfo s.pcB
      raceRun tA tB { tokenInfo := tok, pcA := s.pcA, pcB := pc, fetches := s.fetches + f } rest
    else
      let (tok, pc, f) := raceStep tA s.tokenInfo s.pcA
      raceRun tA tB { tokenInfo := tok, pcA := pc, pcB := s.pcB, fetches := s.fetches + f } rest

/-- The initial race state: no cached token, both tasks at entry. -/
def raceInit : RaceState :=
  { tokenInfo := none, pcA := .start, pcB := .start, fetches := 0 }

/-! ## Helper lemmas about `request` -/

/-- Unfolding `request` when the transport delivers a response. -/
theorem request_resp (c : Client) (cfg : ReqConfig) (w : Wire) (resp : HttpResponse)
    (ps : List TransportOutcome) (hw : w.pending = .resp resp :: ps) :
    c.request cfg w =
      ((if resp.status < 200 ∨ 300 ≤ resp.status then
          .error (.requestFailStatus resp.status resp.data)
        else if resp.data.code ≠ 200 then
          .error (.requestFailCode resp.data.code resp.data.data)
        else .ok resp.data.data), c,
       { pending := ps, sent := w.sent ++ [cfg] }) := by
  unfold Client.request httpCall
  rw [hw]
  show (if resp.status < 200 ∨ 300 ≤ resp.status then
          (Except.error (Err.requestFailStatus resp.status resp.data), c,
            ({ pending := ps, sent := w.sent ++ [cfg] } : Wire))
        else if resp.data.code ≠ 200 then
          (Except.error (Err.requestFailCode resp.data.code resp.data.data), c,
            ({ pending := ps, sent := w.sent ++ [cfg] } : Wire))
        else
          (Except.ok resp.data.data, c,
            ({ pending := ps, sent := w.sent ++ [cfg] } : Wire))) = _
  split_ifs <;> rfl

/-- Unfolding `request` when the transport promise rejects. -/
theorem request_err (c : Client) (cfg : ReqConfig) (w : Wire) (m : String)
    (ps : List TransportOutcome) (hw : w.pending = .err m :: ps) :
    c.request cfg w =
      (.error (.transport m), c, { pending := ps, sent := w.sent ++ [cfg] }) := by
  unfold Client.request httpCall
  rw [hw]

/-- Unfolding `request` when the transport oracle is exhausted. -/
theorem request_exhausted (c : Client) (cfg : ReqConfig) (w : Wire)
    (hw : w.pending = []) :
    c.request cfg w =
      (.error (.transport "network unreachable"), c,
       { pending := [], sent := w.sent ++ [cfg] }) := by
  unfold Client.request httpCall
  rw [hw]

/-- `request` on a 2xx response whose body code is 200 returns the data. -/
theorem request_ok (c : Client) (cfg : ReqConfig) (w : Wire) (resp : HttpResponse)
    (ps : List TransportOutcome) (hw : w.pending = .resp resp :: ps)
    (h1 : 200 ≤ resp.status) (h2 : resp.status < 300) (h3 : resp.data.code = 200) :
    c.request cfg w =
      (.ok resp.data.data, c, { pending := ps, sent := w.sent ++ [cfg] }) := by
  rw [request_resp c cfg w resp ps hw]
  have hs : ¬(resp.status < 200 ∨ 300 ≤ resp.status) := by omega
  simp [hs, h3]

/-- `request` never mutates the client record. -/
theorem request_client_eq (c : Client) (cfg : ReqConfig) (w : Wire) :
    (c.request cfg w).2.1 = c := by
  rcases hp : w.pending with _ | ⟨o, rest⟩
  · rw [request_exhausted c cfg w hp]
  · rcases o with m | resp
    · rw [request_err c cfg w m rest hp]
    · rw [request_resp c cfg w resp rest hp]

/-- Whatever the outcome, one `request` appends exactly one config to the
send trace and consumes at most the head pending outcome. -/
theorem request_wire_eq (c : Client) (cfg : ReqConfig) (w : Wire) :
    ((c.request cfg w).2.2).sent = w.sent ++ [cfg] ∧
    ((c.request cfg w).2.2).pending = w.pending.tail := by
  rcases hp : w.pending with _ | ⟨o, rest⟩
  · rw [request_exhausted c cfg w hp]
    exact ⟨rfl, rfl⟩
  · rcases o with m | resp
    · rw [request_err c cfg w m rest hp]
      exact ⟨rfl, rfl⟩
    · rw [request_resp c cfg w resp rest hp]
      exact ⟨rfl, rfl⟩

/-- Every error `request` produces is a transport or `requestFail` error. -/
theorem request_error_shape (c : Client) (cfg : ReqConfig) (w : Wire) (e : Err)
    (h : (c.request cfg w).1 = .error e) :
    (∃ m, e = .transport m) ∨ (∃ s d, e = .requestFailStatus s d) ∨
      (∃ k d, e = .requestFailCode k d) := by
  rcases hp : w.pending with _ | ⟨o, rest⟩
  · rw [request_exhausted c cfg w hp] at h
    exact Or.inl ⟨_, (Except.error.inj h).symm⟩
  · rcases o with m | resp
    · rw [request_err c cfg w m rest hp] at h
      exact Or.inl ⟨_, (Except.error.inj h).symm⟩
    · rw [request_resp c cfg w resp rest hp] at h
      simp only [] at h
      by_cases hs : resp.status < 200 ∨ 300 ≤ resp.status
      · rw [if_pos hs] at h
        exact Or.inr (Or.inl ⟨_, _, (Except.error.inj h).symm⟩)
      · rw [if_neg hs] at h
        by_cases hc : resp.data.code = 200
        · simp [hc] at h
        · rw [if_pos (by simpa using hc)] at h
          exact Or.inr (Or.inr ⟨_, _, (Except.error.inj h).symm⟩)

/-! ## Helper lemmas about `getToken` -/

/-- A cached token with truthy `expiration` is returned as-is: no state
change, no HTTP traffic. -/
theorem getToken_cached (c : Client) (ti : ITokenInfo) (w : Wire)
    (h : c.tokenInfo = some ti) (hexp : ti.expiration ≠ 0) :
    c.getToken w = (.ok (tokenString ti), c, w) := by
  unfold Client.getToken
  rw [h]
  simp [hexp]

/-- With no cached token, or a cached token with `expiration` 0, `getToken`
reaches the fetch-and-store path (both the unlocked check and the
double-check fall through). -/
theorem getToken_uncached_run (c : Client) (w : Wire)
    (hcache : ∀ t0, c.tokenInfo = some t0 → t0.expiration = 0) :
    c.getToken w = c.fetchAndStoreToken w := by
  unfold Client.getToken Client.getTokenLocked
  rcases h : c.tokenInfo with _ | ti
  · rfl
  · have h0 := hcache ti h
    simp [h0]

/-- Running the fetch-and-store path against a good token response. -/
theorem fetchAndStore_ok (c : Client) (w : Wire) (resp : HttpResponse)
    (ps : List TransportOutcome) (ti : ITokenInfo)
    (hw : w.pending = .resp resp :: ps)
    (h1 : 200 ≤ resp.status) (h2 : resp.status < 300) (h3 : resp.data.code = 200)
    (hd : resp.data.data = .jtok ti) :
    c.fetchAndStoreToken w =
      (.ok (tokenString ti), { c with tokenInfo := some ti },
       { pending := ps, sent := w.sent ++ [tokenRequestConfig c] }) := by
  unfold Client.fetchAndStoreToken Client.doGetToken
  rw [request_ok c (tokenRequestConfig c) w resp ps hw h1 h2 h3]
  simp [hd, JVal.toTokenInfo]

/-- Either the cache is valid (some token with truthy expiration) or every
cached token has expiration 0: the case split `getToken` effectively makes. -/
theorem cache_dichotomy (c : Client) :
    (∃ ti, c.tokenInfo = some ti ∧ ti.expiration ≠ 0) ∨
      (∀ t0, c.tokenInfo = some t0 → t0.expiration = 0) := by
  rcases h : c.tokenInfo with _ | ti
  · exact Or.inr (fun t0 ht => Option.noConfusion ht)
  · by_cases hexp : ti.expiration = 0
    · refine Or.inr (fun t0 ht => ?_)
      injection ht with h2
      rw [← h2]
      exact hexp
    · exact Or.inl ⟨ti, rfl, hexp⟩

/-- A successful `getToken` leaves a cached token whose formatted string is
the returned value. -/
theorem getToken_ok_inv (c : Client) (w : Wire) (r : String) (c' : Client) (w' : Wire)
    (h : c.getToken w = (.ok r, c', w')) :
    ∃ ti, c'.tokenInfo = some ti ∧ r = tokenString ti := by
  rcases cache_dichotomy c with ⟨ti, hti, hexp⟩ | hcache
  · rw [getToken_cached c ti w hti hexp] at h
    injection h with h1 h4
    injection h4 with h2 h3
    exact ⟨ti, by rw [← h2, hti], (Except.ok.inj h1).symm⟩
  · rw [getToken_uncached_run c w hcache] at h
    unfold Client.fetchAndStoreToken at h
    rcases hd : c.doGetToken w with ⟨res, c2, w2⟩
    rw [hd] at h
    rcases res with e | ti
    · exact absurd (congrArg (·.1) h) (by simp)
    · injection h with h1 h4
      injection h4 with h2 h3
      exact ⟨ti, by rw [← h2], (Except.ok.inj h1).symm⟩

/-- Every error `getToken` produces comes from `request`. -/
theorem getToken_error_shape (c : Client) (w : Wire) (e : Err)
    (h : (c.getToken w).1 = .error e) :
    (∃ m, e = .transport m) ∨ (∃ s d, e = .requestFailStatus s d) ∨
      (∃ k d, e = .requestFailCode k d) := by
  rcases cache_dichotomy c with ⟨ti, hti, hexp⟩ | hcache
  · rw [getToken_cached c ti w hti hexp] at h
    cases h
  · rw [getToken_uncached_run c w hcache] at h
    unfold Client.fetchAndStoreToken Client.doGetToken at h
    rcases hr : c.request (tokenRequestConfig c) w with ⟨res, c2, w2⟩
    rw [hr] at h
    rcases res with e0 | v
    · have he : e0 = e := Except.error.inj h
      subst he
      exact request_error_shape c (tokenRequestConfig c) w e0 (by rw [hr])
    · cases h

/-! ## Helper lemmas about `getEnv` and `setEnv` -/

/-- `getEnv` propagates a `getToken` failure. -/
theorem getEnv_error_step (c : Client) (name : String) (w : Wire) (e : Err)
    (c1 : Client) (w1 : Wire) (hg : c.getToken w = (.error e, c1, w1)) :
    c.getEnv name w = (.error e, c1, w1) := by
  unfold Client.getEnv
  rw [hg]

/-- `getEnv` continues with the resolved Authorization header. -/
theorem getEnv_ok_step (c : Client) (name auth : String) (w : Wire)
    (c1 : Client) (w1 : Wire) (hg : c.getToken w = (.ok auth, c1, w1)) :
    c.getEnv name w = c1.getEnvWithAuth auth name w1 := by
  unfold Client.getEnv
  rw [hg]

/-- The post-authorization part of `getEnv` propagates a `request` failure. -/
theorem getEnvWithAuth_error_step (c : Client) (auth name : String) (w : Wire)
    (e : Err) (c2 : Client) (w2 : Wire)
    (hr : c.request (envQueryConfig auth name) w = (.error e, c2, w2)) :
    c.getEnvWithAuth auth name w = (.error e, c2, w2) := by
  unfold Client.getEnvWithAuth
  rw [hr]

/-- The post-authorization part of `getEnv` scans the response data. -/
theorem getEnvWithAuth_ok_step (c : Client) (auth name : String) (w : Wire)
    (jv : JVal) (c2 : Client) (w2 : Wire)
    (hr : c.request (envQueryConfig auth name) w = (.ok jv, c2, w2)) :
    c.getEnvWithAuth auth name w =
      (match jv.toEnvList with
       | .error e => (.error e, c2, w2)
       | .ok envs => (findEnv name envs, c2, w2)) := by
  unfold Client.getEnvWithAuth
  rw [hr]

/-- `putEnv` propagates a `getToken` failure. -/
theorem putEnv_error_step (c : Client) (name value : String) (remarks : Option String)
    (id : Int) (w : Wire) (e : Err) (c1 : Client) (w1 : Wire)
    (hg : c.getToken w = (.error e, c1, w1)) :
    c.putEnv name value remarks id w = (.error e, c1, w1) := by
  unfold Client.putEnv
  rw [hg]

/-- `putEnv` issues the PUT once the Authorization header is resolved. -/
theorem putEnv_ok_step (c : Client) (name value : String) (remarks : Option String)
    (id : Int) (w : Wire) (auth : String) (c1 : Client) (w1 : Wire)
    (hg : c.getToken w = (.ok auth, c1, w1)) :
    c.putEnv name value remarks id w =
      c1.request (envUpdateConfig auth name value remarks id) w1 := by
  unfold Client.putEnv
  rw [hg]

/-- `setEnv` propagates a `getEnv` failure. -/
theorem setEnv_error_step (c : Client) (name value : String) (remarks : Option String)
    (w : Wire) (e : Err) (c1 : Client) (w1 : Wire)
    (hg : c.getEnv name w = (.error e, c1, w1)) :
    c.setEnv name value remarks w = (.error e, c1, w1) := by
  unfold Client.setEnv
  rw [hg]

/-- `setEnv`'s guard branch: a null lookup result would throw. -/
theorem setEnv_none_step (c : Client) (name value : String) (remarks : Option String)
    (w : Wire) (c1 : Client) (w1 : Wire)
    (hg : c.getEnv name w = (.ok none, c1, w1)) :
    c.setEnv name value remarks w = (.error (.jsError (envNotExistMsg name)), c1, w1) := by
  unfold Client.setEnv
  rw [hg]

/-- `setEnv` continues into the PUT with the looked-up record's id. -/
theorem setEnv_some_step (c : Client) (name value : String) (remarks : Option String)
    (w : Wire) (env : IGetEnvResp) (c1 : Client) (w1 : Wire)
    (hg : c.getEnv name w = (.ok (some env), c1, w1)) :
    c.setEnv name value remarks w = c1.putEnv name value remarks env.id w1 := by
  unfold Client.setEnv
  rw [hg]

/-- Running the post-authorization part of `getEnv` against a good response
carrying an env list. -/
theorem getEnvWithAuth_run (c : Client) (auth name : String) (w : Wire)
    (resp : HttpResponse) (ps : List TransportOutcome)
    (envs : List (Option IGetEnvResp))
    (hw : w.pending = .resp resp :: ps)
    (h1 : 200 ≤ resp.status) (h2 : resp.status < 300) (h3 : resp.data.code = 200)
    (hd : resp.data.data = .jenvs envs) :
    c.getEnvWithAuth auth name w =
      (findEnv name envs, c,
       { pending := ps, sent := w.sent ++ [envQueryConfig auth name] }) := by
  rw [getEnvWithAuth_ok_step c auth name w resp.data.data c
        { pending := ps, sent := w.sent ++ [envQueryConfig auth name] }
        (request_ok c (envQueryConfig auth name) w resp ps hw h1 h2 h3), hd]
  rfl

/-- Running `getEnv` when a valid token is cached: one query is issued and
the response list is scanned. -/
theorem getEnv_run (c : Client) (ti : ITokenInfo) (name : String) (w : Wire)
    (resp : HttpResponse) (ps : List TransportOutcome)
    (envs : List (Option IGetEnvResp))
    (htok : c.tokenInfo = some ti) (hexp : ti.expiration ≠ 0)
    (hw : w.pending = .resp resp :: ps)
    (h1 : 200 ≤ resp.status) (h2 : resp.status < 300) (h3 : resp.data.code = 200)
    (hd : resp.data.data = .jenvs envs) :
    c.getEnv name w =
      (findEnv name envs, c,
       { pending := ps, sent := w.sent ++ [envQueryConfig (tokenString ti) name] }) := by
  unfold Client.getEnv
  rw [getToken_cached c ti w htok hexp]
  exact getEnvWithAuth_run c (tokenString ti) name w resp ps envs hw h1 h2 h3 hd

/-- The loop on a list of genuine records returns the first exact name match
and otherwise throws `Env '<name>' Not Found`. -/
theorem findEnv_map_some (name : String) (envs : List IGetEnvResp) :
    findEnv name (envs.map some) =
      match envs.find? (fun e => e.name == name) with
      | some e => .ok (some e)
      | none => .error (.jsError (envNotFoundMsg name)) := by
  induction envs with
  | nil => rfl
  | cons e rest ih =>
    by_cases h : e.name = name
    · rw [List.map_cons, List.find?_cons_of_pos _ (by simpa using h)]
      unfold findEnv
      rw [if_pos h]
    · rw [List.map_cons, List.find?_cons_of_neg _ (by simpa using h)]
      unfold findEnv
      rw [if_neg h]
      exact ih

/-- A value the loop returns is a `some` element of the list with the
requested name: it is never null. -/
theorem findEnv_ok_inv (name : String) (l : List (Option IGetEnvResp))
    (v : Option IGetEnvResp) (h : findEnv name l = .ok v) :
    ∃ e, v = some e ∧ some e ∈ l ∧ e.name = name := by
  induction l with
  | nil => exact absurd h (by simp [findEnv])
  | cons o rest ih =>
    rcases o with _ | e
    · exact absurd h (by simp [findEnv])
    · by_cases he : e.name = name
      · unfold findEnv at h
        rw [if_pos he] at h
        exact ⟨e, (Except.ok.inj h).symm, List.mem_cons_self _ _, he⟩
      · unfold findEnv at h
        rw [if_neg he] at h
        obtain ⟨e0, hv, hm, hn⟩ := ih h
        exact ⟨e0, hv, List.mem_cons_of_mem _ hm, hn⟩

/-- A successful `getEnv` result is never null. -/
theorem getEnv_ok_isSome (c : Client) (name : String) (w : Wire)
    (v : Option IGetEnvResp) (c' : Client) (w' : Wire)
    (h : c.getEnv name w = (.ok v, c', w')) : v.isSome = true := by
  rcases hg : c.getToken w with ⟨res, c1, w1⟩
  rcases res with e | auth
  · rw [getEnv_error_step c name w e c1 w1 hg] at h
    exact absurd (congrArg (·.1) h) (by simp)
  · rw [getEnv_ok_step c name auth w c1 w1 hg] at h
    rcases hr : c1.request (envQueryConfig auth name) w1 with ⟨res2, c2, w2⟩
    rcases res2 with e | jv
    · rw [getEnvWithAuth_error_step c1 auth name w1 e c2 w2 hr] at h
      exact absurd (congrArg (·.1) h) (by simp)
    · rw [getEnvWithAuth_ok_step c1 auth name w1 jv c2 w2 hr] at h
      rcases hl : jv.toEnvList with e | envs <;> rw [hl] at h
      · exact absurd (congrArg (·.1) h) (by simp)
      · have hfind : findEnv name envs = .ok v := by
          have := congrArg (·.1) h
          simpa using this
        obtain ⟨e0, hv, -, -⟩ := findEnv_ok_inv name envs v hfind
        rw [hv]
        rfl

/-! ## Frame lemmas: only `tokenInfo` is ever written -/

/-- All fields of the client other than `tokenInfo` agree. -/
def preservesFrame (c c' : Client) : Prop :=
  c'.baseUrl = c.baseUrl ∧ c'.clientId = c.clientId ∧
    c'.clientSecret = c.clientSecret ∧ c'.axiosInstance = c.axiosInstance

theorem preservesFrame_refl (c : Client) : preservesFrame c c :=
  ⟨rfl, rfl, rfl, rfl⟩

theorem preservesFrame_trans (a b c : Client)
    (h1 : preservesFrame a b) (h2 : preservesFrame b c) : preservesFrame a c := by
  obtain ⟨x1, x2, x3, x4⟩ := h1
  obtain ⟨y1, y2, y3, y4⟩ := h2
  exact ⟨y1.trans x1, y2.trans x2, y3.trans x3, y4.trans x4⟩

theorem doGetToken_client_eq (c : Client) (w : Wire) :
    (c.doGetToken w).2.1 = c := by
  unfold Client.doGetToken
  rcases hr : c.request (tokenRequestConfig c) w with ⟨res, c2, w2⟩
  have hc : c2 = c := by
    have := request_client_eq c (tokenRequestConfig c) w
    rw [hr] at this
    exact this
  rcases res with e | v <;> exact hc

theorem fetchAndStore_frame (c : Client) (w : Wire) :
    preservesFrame c (c.fetchAndStoreToken w).2.1 := by
  unfold Client.fetchAndStoreToken
  rcases hd : c.doGetToken w with ⟨res, c2, w2⟩
  have hc : c2 = c := by
    have := doGetToken_client_eq c w
    rw [hd] at this
    exact this
  subst hc
  rcases res with e | ti
  · exact preservesFrame_refl c2
  · exact ⟨rfl, rfl, rfl, rfl⟩

theorem getToken_frame (c : Client) (w : Wire) :
    preservesFrame c (c.getToken w).2.1 := by
  rcases cache_dichotomy c with ⟨ti, hti, hexp⟩ | hcache
  · rw [getToken_cached c ti w hti hexp]
    exact preservesFrame_refl c
  · rw [getToken_uncached_run c w hcache]
    exact fetchAndStore_frame c w

theorem getEnvWithAuth_frame (c : Client) (auth name : String) (w : Wire) :
    preservesFrame c (c.getEnvWithAuth auth name w).2.1 := by
  rcases hr : c.request (envQueryConfig auth name) w with ⟨res2, c2, w2⟩
  have hc : c2 = c := by
    have := request_client_eq c (envQueryConfig auth name) w
    rw [hr] at this
    exact this
  subst hc
  rcases res2 with e | jv
  · rw [getEnvWithAuth_error_step c2 auth name w e c2 w2 hr]
    exact preservesFrame_refl c2
  · rw [getEnvWithAuth_ok_step c2 auth name w jv c2 w2 hr]
    rcases jv.toEnvList with e | envs
    · exact preservesFrame_refl c2
    · exact preservesFrame_refl c2

theorem getEnv_frame (c : Client) (name : String) (w : Wire) :
    preservesFrame c (c.getEnv name w).2.1 := by
  rcases hg : c.getToken w with ⟨res, c1, w1⟩
  have h1 : preservesFrame c c1 := by
    have := getToken_frame c w
    rw [hg] at this
    exact this
  rcases res with e | auth
  · rw [getEnv_error_step c name w e c1 w1 hg]
    exact h1
  · rw [getEnv_ok_step c name auth w c1 w1 hg]
    exact preservesFrame_trans c c1 _ h1 (getEnvWithAuth_frame c1 auth name w1)

theorem putEnv_frame (c : Client) (name value : String) (remarks : Option String)
    (id : Int) (w : Wire) :
    preservesFrame c (c.putEnv name value remarks id w).2.1 := by
  rcases hg : c.getToken w with ⟨res, c1, w1⟩
  have h1 : preservesFrame c c1 := by
    have := getToken_frame c w
    rw [hg] at this
    exact this
  rcases res with e | auth
  · rw [putEnv_error_step c name value remarks id w e c1 w1 hg]
    exact h1
  · rw [putEnv_ok_step c name value remarks id w auth c1 w1 hg]
    have h2 : preservesFrame c1
        (c1.request (envUpdateConfig auth name value remarks id) w1).2.1 := by
      rw [request_client_eq]
      exact preservesFrame_refl c1
    exact preservesFrame_trans c c1 _ h1 h2

theorem setEnv_frame (c : Client) (name value : String) (remarks : Option String)
    (w : Wire) :
    preservesFrame c (c.setEnv name value remarks w).2.1 := by
  rcases hg : c.getEnv name w with ⟨res, c1, w1⟩
  have h1 : preservesFrame c c1 := by
    have := getEnv_frame c name w
    rw [hg] at this
    exact this
  rcases res with e | envOpt
  · rw [setEnv_error_step c name value remarks w e c1 w1 hg]
    exact h1
  · rcases envOpt with _ | env
    · rw [setEnv_none_step c name value remarks w c1 w1 hg]
      exact h1
    · rw [setEnv_some_step c name value remarks w env c1 w1 hg]
      exact preservesFrame_trans c c1 _ h1 (putEnv_frame c1 name value remarks env.id w1)

/-- Every error `putEnv` produces comes from `getToken` or `request`: it is
never a `jsError`. -/
theorem putEnv_error_shape (c : Client) (name value : String) (remarks : Option String)
    (id : Int) (w : Wire) (e : Err)
    (h : (c.putEnv name value remarks id w).1 = .error e) :
    (∃ m, e = .transport m) ∨ (∃ s d, e = .requestFailStatus s d) ∨
      (∃ k d, e = .requestFailCode k d) := by
  rcases hg : c.getToken w with ⟨res, c1, w1⟩
  rcases res with e0 | auth
  · rw [putEnv_error_step c name value remarks id w e0 c1 w1 hg] at h
    have he : e0 = e := Except.error.inj h
    subst he
    exact getToken_error_shape c w e0 (by rw [hg])
  · rw [putEnv_ok_step c name value remarks id w auth c1 w1 hg] at h
    exact request_error_shape c1 (envUpdateConfig auth name value remarks id) w1 e h

/-! ## Concrete fixtures used by witnesses and counterexamples -/

/-- A 2xx response whose body has code 200 and the given data. -/
def okResp (v : JVal) : TransportOutcome :=
  .resp { status := 200, data := { code := 200, data := v } }

def tokFixture : ITokenInfo :=
  { token := "tok", token_type := "Bearer", expiration := 1893456000 }

def clientFixture : Client := Client.create "http://ql.example" "cid" "csec"

/-- The fixture client with a valid token already cached. -/
def cachedClientFixture : Client :=
  { clientFixture with tokenInfo := some tokFixture }

/-- A token whose `expiration` field is 0, as the service may deliver. -/
def zeroExpTok (s : String) : ITokenInfo :=
  { token := s, token_type := "Bearer", expiration := 0 }

/-- Two successive token responses, both with expiration 0 and different
tokens. -/
def zeroExpWire : Wire :=
  { pending := [okResp (.jtok (zeroExpTok "t1")), okResp (.jtok (zeroExpTok "t2"))],
    sent := [] }

/-- A client whose cached token expired one second after the epoch: any
realistic call happens long after that timestamp. -/
def staleClient : Client :=
  { clientFixture with
    tokenInfo := some { token := "stale", token_type := "Bearer", expiration := 1 } }

/-- A wire on which a fresh token is available, were it requested. -/
def freshTokenWire : Wire :=
  { pending := [okResp (.jtok { token := "fresh", token_type := "Bearer",
                                expiration := 1893456000 })],
    sent := [] }

def fooEnv : IGetEnvResp := { id := 7, name := "FOO", value := "v1", remarks := "r" }

def otherEnv : IGetEnvResp := { id := 8, name := "FOOBAR", value := "v2", remarks := "" }

/-- An env query response: the search also matched a record whose name only
contains the requested name as a prefix, listed first. -/
def envRespFixture : HttpResponse :=
  { status := 200, data := { code := 200, data := .jenvs [some otherEnv, some fooEnv] } }

def envListWire : Wire := { pending := [.resp envRespFixture], sent := [] }

def putRespFixture : HttpResponse :=
  { status := 200, data := { code := 200, data := .jenv fooEnv } }

def setEnvWire : Wire :=
  { pending := [.resp envRespFixture, .resp putRespFixture], sent := [] }

def badStatusResp : HttpResponse :=
  { status := 500, data := { code := 200, data := .jnull } }

def badStatusWire : Wire := { pending := [.resp badStatusResp], sent := [] }

def raceTokA : ITokenInfo := { token := "tA", token_type := "Bearer", expiration := 3600 }

def raceTokB : ITokenInfo := { token := "tB", token_type := "Bearer", expiration := 3600 }

/-! ## The claims -/

/-- C1: when `getToken` is called while no valid token is cached (`tokenInfo`
null, or its `expiration` field 0 — the hypothesis `hcache` states exactly
this disjunction, vacuously for null), it obtains token info from
`/open/auth/token` via `doGetToken` using the client's `client_id` and
`client_secret` as query parameters, stores the result in `tokenInfo`, and
returns the fetched `token_type`, a single space, and the fetched token. -/
theorem getToken_uncached_fetches (c : Client) (w : Wire) (resp : HttpResponse)
    (ps : List TransportOutcome) (ti : ITokenInfo)
    (hcache : ∀ t0, c.tokenInfo = some t0 → t0.expiration = 0)
    (hw : w.pending = .resp resp :: ps)
    (h1 : 200 ≤ resp.status) (h2 : resp.status < 300) (h3 : resp.data.code = 200)
    (hd : resp.data.data = .jtok ti) :
    c.getToken w =
      (.ok (ti.token_type ++ " " ++ ti.token),
       { c with tokenInfo := some ti },
       { pending := ps,
         sent := w.sent ++
           [{ method := "GET", url := "/open/auth/token",
              params := [("client_id", c.clientId), ("client_secret", c.clientSecret)],
              headers := [], data := none }] }) := by
  rw [getToken_uncached_run c w hcache,
      fetchAndStore_ok c w resp ps ti hw h1 h2 h3 hd]
  rfl

/-- Witness for C1: a freshly constructed client fetching a concrete token. -/
theorem getToken_uncached_fetches_witness :
    clientFixture.getToken { pending := [okResp (.jtok tokFixture)], sent := [] } =
      (.ok "Bearer tok",
       { clientFixture with tokenInfo := some tokFixture },
       { pending := [], sent := [tokenRequestConfig clientFixture] }) :=
  getToken_uncached_fetches clientFixture
    { pending := [okResp (.jtok tokFixture)], sent := [] }
    { status := 200, data := { code := 200, data := .jtok tokFixture } } [] tokFixture
    (fun t0 ht => Option.noConfusion ht) rfl (by decide) (by decide) rfl rfl

/-- C2 counterexample: the claim's consequence "after one successful
`getToken` call, every subsequent call returns the same string with no
further token fetch" fails when the service delivers a token whose
`expiration` field is 0: the result is cached but the cache test
`tokenInfo && tokenInfo.expiration` stays falsy, so a second call fetches
again (two sent requests) and returns a different string. -/
theorem getToken_zero_expiration_refetches :
    (clientFixture.getToken zeroExpWire).1 = .ok "Bearer t1" ∧
    ((clientFixture.getToken zeroExpWire).2.1.getToken
        (clientFixture.getToken zeroExpWire).2.2).1 = .ok "Bearer t2" ∧
    "Bearer t1" ≠ "Bearer t2" ∧
    ((clientFixture.getToken zeroExpWire).2.1.getToken
        (clientFixture.getToken zeroExpWire).2.2).2.2.sent.length = 2 :=
  ⟨rfl, rfl, by decide, rfl⟩

/-- C2 (amended): for every client state with a cached token whose
`expiration` is nonzero, `getToken` returns the cached `token_type` and
token joined by a space, issuing no HTTP request and not modifying any
state; hence after one successful `getToken` call *that cached a token with
nonzero expiration*, every subsequent call returns the same string with no
further fetch. -/
theorem getToken_cache_amended :
    (∀ (c : Client) (ti : ITokenInfo) (w : Wire),
        c.tokenInfo = some ti → ti.expiration ≠ 0 →
        c.getToken w = (.ok (ti.token_type ++ " " ++ ti.token), c, w)) ∧
    (∀ (c : Client) (w : Wire) (r : String) (c' : Client) (w' : Wire),
        c.getToken w = (.ok r, c', w') →
        (∀ ti, c'.tokenInfo = some ti → ti.expiration ≠ 0) →
        ∀ w2 : Wire, c'.getToken w2 = (.ok r, c', w2)) := by
  constructor
  · intro c ti w hti hexp
    exact getToken_cached c ti w hti hexp
  · intro c w r c' w' h hvalid w2
    obtain ⟨ti, hti, hr⟩ := getToken_ok_inv c w r c' w' h
    rw [hr]
    exact getToken_cached c' ti w2 hti (hvalid ti hti)

/-- Witness for C2 (amended), cached part, at a concrete client. -/
theorem getToken_cache_amended_witness :
    cachedClientFixture.getToken { pending := [], sent := [] } =
      (.ok "Bearer tok", cachedClientFixture, { pending := [], sent := [] }) :=
  getToken_cache_amended.1 cachedClientFixture tokFixture { pending := [], sent := [] }
    rfl (by decide)

/-- C3 (code bug): the cached token of `staleClient` carries
`expiration = 1`, a timestamp one second after the epoch and therefore in
the past at any realistic call time; a fresh token is available on the wire.
`getToken` nevertheless returns the stale cached token, issues no request at
all, and leaves the stale cache in place: the source only ever tests
truthiness of `expiration` (lines 71 and 79) and never compares it with the
current time, so no refresh can occur. -/
theorem getToken_stale_token_not_refreshed :
    staleClient.getToken freshTokenWire =
      (.ok "Bearer stale", staleClient, freshTokenWire) ∧
    (staleClient.getToken freshTokenWire).2.2.sent = [] :=
  ⟨rfl, rfl⟩

/-- C4: once the transport delivers a response, `request` throws exactly when
the status lies outside [200, 300) or the body's `code` field differs from
200, and otherwise returns the body's `data` field. -/
theorem request_error_iff_status_or_code (c : Client) (cfg : ReqConfig) (w : Wire)
    (resp : HttpResponse) (ps : List TransportOutcome)
    (hw : w.pending = .resp resp :: ps) :
    ((∃ e, (c.request cfg w).1 = .error e) ↔
      (resp.status < 200 ∨ 300 ≤ resp.status ∨ resp.data.code ≠ 200)) ∧
    ((c.request cfg w).1 = .ok resp.data.data ↔
      (200 ≤ resp.status ∧ resp.status < 300 ∧ resp.data.code = 200)) := by
  have key : (c.request cfg w).1 =
      (if resp.status < 200 ∨ 300 ≤ resp.status then
        Except.error (Err.requestFailStatus resp.status resp.data)
      else if resp.data.code ≠ 200 then
        Except.error (Err.requestFailCode resp.data.code resp.data.data)
      else Except.ok resp.data.data) := by
    rw [request_resp c cfg w resp ps hw]
  rw [key]
  by_cases hs : resp.status < 200 ∨ 300 ≤ resp.status
  · rw [if_pos hs]
    constructor
    · constructor
      · intro _
        rcases hs with h | h
        · exact Or.inl h
        · exact Or.inr (Or.inl h)
      · intro _
        exact ⟨_, rfl⟩
    · constructor
      · intro hok
        exact absurd hok (by simp)
      · rintro ⟨ha, hb, -⟩
        rcases hs with h | h <;> omega
  · rw [if_neg hs]
    push_neg at hs
    obtain ⟨hs1, hs2⟩ := hs
    by_cases hc : resp.data.code = 200
    · rw [if_neg (show ¬resp.data.code ≠ 200 from fun hne => hne hc)]
      constructor
      · constructor
        · rintro ⟨e, he⟩
          exact absurd he (by simp)
        · rintro (h | h | h)
          · omega
          · omega
          · exact absurd hc h
      · constructor
        · intro _
          exact ⟨hs1, hs2, hc⟩
        · intro _
          rfl
    · rw [if_pos hc]
      constructor
      · constructor
        · intro _
          exact Or.inr (Or.inr hc)
        · intro _
          exact ⟨_, rfl⟩
      · constructor
        · intro hok
          exact absurd hok (by simp)
        · rintro ⟨-, -, h⟩
          exact absurd h hc

/-- Witness for C4: a 500 response makes `request` throw. -/
theorem request_error_iff_status_or_code_witness :
    ∃ e, (clientFixture.request (tokenRequestConfig clientFixture) badStatusWire).1 =
      .error e :=
  (request_error_iff_status_or_code clientFixture (tokenRequestConfig clientFixture)
      badStatusWire badStatusResp [] rfl).1.mpr (Or.inr (Or.inl (by decide)))

/-- C5: each `request` invocation issues exactly one call to the underlying
transport: the send trace grows by exactly the one given config and at most
the head pending outcome is consumed, whatever the outcome — a transport
rejection, a non-2xx status, a body code other than 200, or success — so
there is no retry and no backoff. -/
theorem request_single_transport_call (c : Client) (cfg : ReqConfig) (w : Wire) :
    ((c.request cfg w).2.2).sent = w.sent ++ [cfg] ∧
    ((c.request cfg w).2.2).pending = w.pending.tail :=
  request_wire_eq c cfg w

/-- C6: with a valid token cached, `getEnv` queries `/open/envs` with
`searchValue` set to the requested name and returns the first record of the
response list whose `name` field equals the name exactly (the list is given
as genuine records, as typed in the source); if no record matches, it throws
an error whose message is `Env '<name>' Not Found`. -/
theorem getEnv_returns_first_exact_match (c : Client) (ti : ITokenInfo) (name : String)
    (w : Wire) (resp : HttpResponse) (ps : List TransportOutcome)
    (envs : List IGetEnvResp)
    (htok : c.tokenInfo = some ti) (hexp : ti.expiration ≠ 0)
    (hw : w.pending = .resp resp :: ps)
    (h1 : 200 ≤ resp.status) (h2 : resp.status < 300) (h3 : resp.data.code = 200)
    (hd : resp.data.data = .jenvs (envs.map some)) :
    c.getEnv name w =
      ((match envs.find? (fun e => e.name == name) with
        | some e => .ok (some e)
        | none => .error (.jsError ("Env \x27" ++ name ++ "\x27 Not Found"))), c,
       { pending := ps,
         sent := w.sent ++
           [{ method := "GET", url := "/open/envs",
              params := [("searchValue", name)],
              headers := [("Authorization", ti.token_type ++ " " ++ ti.token)],
              data := none }] }) := by
  rw [getEnv_run c ti name w resp ps (envs.map some) htok hexp hw h1 h2 h3 hd,
      findEnv_map_some]
  rfl

/-- Witness for C6: the exact match `FOO` is returned even though a record
named `FOOBAR` (matched by the server-side search) is listed first. -/
theorem getEnv_returns_first_exact_match_witness :
    cachedClientFixture.getEnv "FOO" envListWire =
      (.ok (some fooEnv), cachedClientFixture,
       { pending := [], sent := [envQueryConfig "Bearer tok" "FOO"] }) :=
  getEnv_returns_first_exact_match cachedClientFixture tokFixture "FOO" envListWire
    envRespFixture [] [otherEnv, fooEnv] rfl (by decide) rfl (by decide) (by decide)
    rfl rfl

/-- C7: `setEnv` first resolves the variable via `getEnv` with the same name;
a lookup failure is propagated unchanged with no further request issued (in
particular no PUT), so a variable that cannot be looked up is never updated;
a successful lookup is followed by exactly one PUT to `/open/envs` carrying
the looked-up `id` together with `name`, `value` and `remarks`, whose
response data is returned. -/
theorem setEnv_lookup_then_put :
    (∀ (c : Client) (name value : String) (remarks : Option String) (w : Wire)
        (e : Err) (c1 : Client) (w1 : Wire),
        c.getEnv name w = (.error e, c1, w1) →
        c.setEnv name value remarks w = (.error e, c1, w1)) ∧
    (∀ (c : Client) (ti : ITokenInfo) (name value : String) (remarks : Option String)
        (w : Wire) (envResp putResp : HttpResponse) (ps : List TransportOutcome)
        (envs : List IGetEnvResp) (e : IGetEnvResp),
        c.tokenInfo = some ti → ti.expiration ≠ 0 →
        w.pending = .resp envResp :: .resp putResp :: ps →
        200 ≤ envResp.status → envResp.status < 300 → envResp.data.code = 200 →
        envResp.data.data = .jenvs (envs.map some) →
        envs.find? (fun x => x.name == name) = some e →
        200 ≤ putResp.status → putResp.status < 300 → putResp.data.code = 200 →
        c.setEnv name value remarks w =
          (.ok putResp.data.data, c,
           { pending := ps,
             sent := w.sent ++
               [envQueryConfig (tokenString ti) name,
                envUpdateConfig (tokenString ti) name value remarks e.id] })) := by
  constructor
  · intro c name value remarks w e c1 w1 hg
    exact setEnv_error_step c name value remarks w e c1 w1 hg
  · intro c ti name value remarks w envResp putResp ps envs e htok hexp hw
      he1 he2 he3 hed hfind hp1 hp2 hp3
    have hge : c.getEnv name w =
        (.ok (some e), c,
         { pending := .resp putResp :: ps,
           sent := w.sent ++ [envQueryConfig (tokenString ti) name] }) := by
      rw [getEnv_run c ti name w envResp (.resp putResp :: ps) (envs.map some)
            htok hexp hw he1 he2 he3 hed,
          findEnv_map_some, hfind]
    rw [setEnv_some_step c name value remarks w e c
          { pending := .resp putResp :: ps,
            sent := w.sent ++ [envQueryConfig (tokenString ti) name] } hge,
        putEnv_ok_step c name value remarks e.id
          { pending := .resp putResp :: ps,
            sent := w.sent ++ [envQueryConfig (tokenString ti) name] }
          (tokenString ti) c
          { pending := .resp putResp :: ps,
            sent := w.sent ++ [envQueryConfig (tokenString ti) name] }
          (getToken_cached c ti _ htok hexp),
        request_ok c (envUpdateConfig (tokenString ti) name value remarks e.id)
          { pending := .resp putResp :: ps,
            sent := w.sent ++ [envQueryConfig (tokenString ti) name] }
          putResp ps rfl hp1 hp2 hp3]
    simp [List.append_assoc]

/-- Witness for C7: updating `FOO` issues the query followed by one PUT
carrying the looked-up id 7. -/
theorem setEnv_lookup_then_put_witness :
    cachedClientFixture.setEnv "FOO" "v2new" (some "rm") setEnvWire =
      (.ok (.jenv fooEnv), cachedClientFixture,
       { pending := [],
         sent := [envQueryConfig "Bearer tok" "FOO",
                  envUpdateConfig "Bearer tok" "FOO" "v2new" (some "rm") 7] }) :=
  setEnv_lookup_then_put.2 cachedClientFixture tokFixture "FOO" "v2new" (some "rm")
    setEnvWire envRespFixture putRespFixture [] [otherEnv, fooEnv] fooEnv
    rfl (by decide) rfl (by decide) (by decide) rfl rfl rfl (by decide) (by decide) rfl

/-- C8 (code bug): two concurrent `getToken` calls on a client with no
cached token, under the schedule where both tasks pass the unlocked check
and the double-check before either fetch resolves (task A steps, then task
B steps, then both complete). Because line 75 creates a fresh `RWLock`
inside each call, neither task's `writeLock()` can exclude the other, so
the run issues two token-fetch requests — the claim says the lock-protected
double-check allows at most one — and task A returns `Bearer tA` although
the token finally stored in `tokenInfo` is `raceTokB`, so not every caller
returns the token stored in `tokenInfo` either. -/
theorem getToken_race_double_fetch :
    (raceRun raceTokA raceTokB raceInit [false, false, true, true, false, true]).fetches
        = 2 ∧
    (raceRun raceTokA raceTokB raceInit [false, false, true, true, false, true]).tokenInfo
        = some raceTokB ∧
    (raceRun raceTokA raceTokB raceInit [false, false, true, true, false, true]).pcA
        = .done "Bearer tA" ∧
    "Bearer tA" ≠ tokenString raceTokB :=
  ⟨rfl, rfl, rfl, by decide⟩

/-- C9: a successful `getEnv` never produces a null (or otherwise falsy)
value — its result is a record the loop matched, and records model JS
objects, which are always truthy — so the `if (!env)` guard in `setEnv`
can never fire: `setEnv` never throws `Env '<name>' Not Exist`. -/
theorem getEnv_never_falsy_guard_unreachable (c : Client) (name : String) (w : Wire)
    (v : Option IGetEnvResp) (c' : Client) (w' : Wire)
    (h : c.getEnv name w = (.ok v, c', w')) :
    v.isSome = true ∧
    ∀ (value : String) (remarks : Option String),
      (c.setEnv name value remarks w).1 ≠ .error (.jsError (envNotExistMsg name)) := by
  have hs := getEnv_ok_isSome c name w v c' w' h
  refine ⟨hs, ?_⟩
  intro value remarks hcontra
  obtain ⟨e0, hv⟩ := Option.isSome_iff_exists.mp hs
  subst hv
  rw [setEnv_some_step c name value remarks w e0 c' w' h] at hcontra
  rcases putEnv_error_shape c' name value remarks e0.id w' _ hcontra with
    ⟨m, hm⟩ | ⟨s, d, hm⟩ | ⟨k, d, hm⟩ <;> exact Err.noConfusion hm

/-- Witness for C9 at a concrete successful lookup. -/
theorem getEnv_never_falsy_guard_unreachable_witness :
    (some fooEnv).isSome = true ∧
    (cachedClientFixture.setEnv "FOO" "nv" none envListWire).1 ≠
      .error (.jsError (envNotExistMsg "FOO")) := by
  have h := getEnv_never_falsy_guard_unreachable cachedClientFixture "FOO" envListWire
    (some fooEnv) cachedClientFixture
    { pending := [], sent := [envQueryConfig "Bearer tok" "FOO"] } rfl
  exact ⟨h.1, h.2 "nv" none⟩

/-- C10: `tokenInfo` is the only client field any operation mutates: after
construction, `request`, `doGetToken`, `getToken`, `getEnv` and `setEnv` all
leave `baseUrl`, `clientId`, `clientSecret` and `axiosInstance` unchanged. -/
theorem only_tokenInfo_mutated (c : Client) (cfg : ReqConfig) (name value : String)
    (remarks : Option String) (w w1 w2 w3 w4 : Wire) :
    preservesFrame c (c.request cfg w).2.1 ∧
    preservesFrame c (c.doGetToken w1).2.1 ∧
    preservesFrame c (c.getToken w2).2.1 ∧
    preservesFrame c (c.getEnv name w3).2.1 ∧
    preservesFrame c (c.setEnv name value remarks w4).2.1 := by
  refine ⟨?_, ?_, getToken_frame c w2, getEnv_frame c name w3,
    setEnv_frame c name value remarks w4⟩
  · rw [request_client_eq]
    exact preservesFrame_refl c
  · rw [doGetToken_client_eq]
    exact preservesFrame_refl c

end Qinglong
